import Mathlib

/-!
Verification of the TextureProvider retrieval/storage core.

The Rust sources are shallowly embedded: every effectful operation becomes a
pure Lean function over explicit oracles (network responses, database rows,
the backing file store), and `Result<Option<T>>` becomes the three-way
`Outcome` type (error / empty success / non-empty success).
-/

namespace TextureProvider

/-- User identities (`uuid::Uuid`); modelled abstractly as naturals. -/
abbrev Uuid := Nat

/-- Rust `models.rs`: the closed texture-kind enumeration. -/
inductive TextureType where
  | SKIN
  | CAPE
deriving DecidableEq, Repr

/-- Rust `models.rs` `TextureType::file_extension`. -/
def TextureType.file_extension : TextureType → String
  | .SKIN => "png"
  | .CAPE => "png"

/-- Rust `models.rs` `TextureMetadata`. -/
structure TextureMetadata where
  model : Option String
deriving DecidableEq, Repr

/-- Rust `retrieval/backend.rs` `RetrievedTexture`. -/
structure RetrievedTexture where
  url : String
  hash : String
  metadata : Option TextureMetadata
deriving DecidableEq, Repr

/-- Rust `retrieval/backend.rs` `RetrievedTextureBytes`. -/
structure RetrievedTextureBytes where
  hash : String
  bytes : List Nat
  metadata : Option TextureMetadata
deriving DecidableEq, Repr

/-- Rust `Result<Option<α>>`: an error, an empty success `Ok(None)`, or a
non-empty success `Ok(Some v)`. -/
inductive Outcome (α : Type) where
  | err (msg : String)
  | empty
  | found (value : α)
deriving DecidableEq, Repr

/-- Returns `true` exactly on a non-empty success. -/
def Outcome.isFound {α : Type} : Outcome α → Bool
  | .found _ => true
  | _ => false

/-- A texture retriever (`retrieval/backend.rs` trait `TextureRetriever`),
with each trait method as a pure function of the request. -/
structure Retriever where
  get_texture : Uuid → TextureType → Outcome RetrievedTexture
  get_texture_bytes : Uuid → TextureType → Outcome RetrievedTextureBytes
  get_texture_bytes_by_hash : String → Outcome RetrievedTextureBytes
  supports_texture_type : TextureType → Bool

/-! ## Chain retriever (`retrieval/chain.rs`)

The `ChainRetriever` holds an ordered list of handlers and loops over them:
unsupported kind → skip; `Ok(Some)` → return it; `Ok(None)` → next handler;
`Err` → log and next handler; exhausted → `Ok(None)`. -/

/-- Rust `ChainRetriever::get_texture`. -/
def ChainRetriever.get_texture :
    List Retriever → Uuid → TextureType → Outcome RetrievedTexture
  | [], _, _ => .empty
  | h :: rest, u, t =>
    if h.supports_texture_type t then
      match h.get_texture u t with
      | .found x => .found x
      | .empty => ChainRetriever.get_texture rest u t
      | .err _ => ChainRetriever.get_texture rest u t
    else
      ChainRetriever.get_texture rest u t

/-- Rust `ChainRetriever::get_texture_bytes`. -/
def ChainRetriever.get_texture_bytes :
    List Retriever → Uuid → TextureType → Outcome RetrievedTextureBytes
  | [], _, _ => .empty
  | h :: rest, u, t =>
    if h.supports_texture_type t then
      match h.get_texture_bytes u t with
      | .found x => .found x
      | .empty => ChainRetriever.get_texture_bytes rest u t
      | .err _ => ChainRetriever.get_texture_bytes rest u t
    else
      ChainRetriever.get_texture_bytes rest u t

/-- Rust `ChainRetriever::get_texture_bytes_by_hash` (no kind filter). -/
def ChainRetriever.get_texture_bytes_by_hash :
    List Retriever → String → Outcome RetrievedTextureBytes
  | [], _ => .empty
  | h :: rest, s =>
    match h.get_texture_bytes_by_hash s with
    | .found x => .found x
    | .empty => ChainRetriever.get_texture_bytes_by_hash rest s
    | .err _ => ChainRetriever.get_texture_bytes_by_hash rest s

/-- Rust `ChainRetriever::get_texture` instrumented with the list of handler
positions actually invoked (`handler.get_texture` called); skipped handlers
are not recorded. The counter `i` is the position of the list head. -/
def ChainRetriever.get_texture_traced :
    List Retriever → Nat → Uuid → TextureType →
      Outcome RetrievedTexture × List Nat
  | [], _, _, _ => (.empty, [])
  | h :: rest, i, u, t =>
    if h.supports_texture_type t then
      match h.get_texture u t with
      | .found x => (.found x, [i])
      | .empty =>
        let r := ChainRetriever.get_texture_traced rest (i + 1) u t
        (r.1, i :: r.2)
      | .err _ =>
        let r := ChainRetriever.get_texture_traced rest (i + 1) u t
        (r.1, i :: r.2)
    else
      ChainRetriever.get_texture_traced rest (i + 1) u t

/-- Rust `ChainRetriever::get_texture_bytes` instrumented with invoked positions. -/
def ChainRetriever.get_texture_bytes_traced :
    List Retriever → Nat → Uuid → TextureType →
      Outcome RetrievedTextureBytes × List Nat
  | [], _, _, _ => (.empty, [])
  | h :: rest, i, u, t =>
    if h.supports_texture_type t then
      match h.get_texture_bytes u t with
      | .found x => (.found x, [i])
      | .empty =>
        let r := ChainRetriever.get_texture_bytes_traced rest (i + 1) u t
        (r.1, i :: r.2)
      | .err _ =>
        let r := ChainRetriever.get_texture_bytes_traced rest (i + 1) u t
        (r.1, i :: r.2)
    else
      ChainRetriever.get_texture_bytes_traced rest (i + 1) u t

/-! ## Storage backends (`storage/local.rs`, `storage/s3.rs`)

The backing store (a directory of files, or an S3 bucket) is modelled as a
map from keys to byte payloads; `store_file` produces the updated store
together with the returned URL (the success path of the I/O). -/

/-- A backing store: key (file path / object key) → stored bytes. -/
abbrev FileStore := String → Option (List Nat)

/-- Write one key of a `FileStore`. -/
def FileStore.write (fs : FileStore) (k : String) (v : List Nat) : FileStore :=
  fun q => if q = k then some v else fs q

/-- Rust `str::trim_end_matches('/')`: drop trailing slash characters. -/
def trimEndSlashes (s : String) : String :=
  String.mk ((s.toList.reverse.dropWhile (· = '/')).reverse)

/-- Rust `storage/local.rs` `LocalStorage` configuration. -/
structure LocalStorage where
  storage_path : String
  base_url : String

/-- Rust `LocalStorage::generate_url`: `{base_url trimmed of trailing '/'}/{hash}`
(the extension is ignored). -/
def LocalStorage.generate_url (l : LocalStorage) (hash _extension : String) :
    String :=
  trimEndSlashes l.base_url ++ "/" ++ hash

/-- The file path `LocalStorage` uses for a hash: `storage_path.join(hash)`
(the file name is just the hash, no extension). -/
def LocalStorage.file_path (l : LocalStorage) (hash : String) : String :=
  l.storage_path ++ "/" ++ hash

/-- Rust `LocalStorage::store_file` (success path): write the bytes under the
hash-named file and return the generated URL. -/
def LocalStorage.store_file (l : LocalStorage) (fs : FileStore)
    (bytes : List Nat) (hash extension : String) : FileStore × String :=
  (fs.write (l.file_path hash) bytes, l.generate_url hash extension)

/-- Rust `LocalStorage::get_file`: read the hash-named file (the extension is
ignored); a missing file is an error. -/
def LocalStorage.get_file (l : LocalStorage) (fs : FileStore)
    (hash _extension : String) : Except String (List Nat) :=
  match fs (l.file_path hash) with
  | some b => .ok b
  | none => .error ("Failed to read file " ++ l.file_path hash)

/-- Rust `storage/s3.rs` `S3Storage` configuration. -/
structure S3Storage where
  bucket : String
  region : String
  endpoint : Option String

/-- Rust `S3Storage::get_file_path`: `{hash}.{extension}`. -/
def S3Storage.get_file_path (_s3 : S3Storage) (hash extension : String) :
    String :=
  hash ++ "." ++ extension

/-- Rust `S3Storage::generate_s3_url`: custom endpoint if configured, otherwise
the canonical AWS bucket URL. -/
def S3Storage.generate_s3_url (s3 : S3Storage) (path : String) : String :=
  match s3.endpoint with
  | some ep => trimEndSlashes ep ++ "/" ++ path
  | none =>
    "https://" ++ s3.bucket ++ ".s3." ++ s3.region ++ ".amazonaws.com/" ++ path

/-- Rust `S3Storage::store_file` (success path of the PUT): write the object
under `{hash}.{extension}` and return the generated URL. -/
def S3Storage.store_file (s3 : S3Storage) (fs : FileStore)
    (bytes : List Nat) (hash extension : String) : FileStore × String :=
  (fs.write (s3.get_file_path hash extension) bytes,
   s3.generate_s3_url (s3.get_file_path hash extension))

/-- Rust `S3Storage::get_file`: read the object at `{hash}.{extension}`; a missing
object is an error. -/
def S3Storage.get_file (s3 : S3Storage) (fs : FileStore)
    (hash extension : String) : Except String (List Nat) :=
  match fs (s3.get_file_path hash extension) with
  | some b => .ok b
  | none => .error "NoSuchKey"

/-- Rust `S3Storage::generate_url`. -/
def S3Storage.generate_url (s3 : S3Storage) (hash extension : String) :
    String :=
  s3.generate_s3_url (s3.get_file_path hash extension)

/-! ## HTTP layer and `download_file_from_url` (`retrieval/backend.rs`) -/

/-- An HTTP response: status code and body bytes. Transport failures are the
`Except.error` side of the network oracle. -/
structure HttpResp where
  status : Nat
  body : List Nat
deriving DecidableEq, Repr

/-- A network oracle: URL → transport error or response. -/
abbrev Net := String → Except String HttpResp

/-- Rust `reqwest::StatusCode::is_success`: 2xx. -/
def statusIsSuccess (s : Nat) : Bool := 200 ≤ s && s < 300

/-- Rust `retrieval/backend.rs` `download_file_from_url`: transport error →
error; non-success status → `Ok(None)`; otherwise `Ok(Some bytes))`. -/
def download_file_from_url (net : Net) (url : String) : Outcome (List Nat) :=
  match net url with
  | .error e => .err e
  | .ok resp =>
    if statusIsSuccess resp.status then .found resp.body else .empty

/-! ## Default-skin retriever (`retrieval/default_skin.rs`) -/

/-- The fixed default Steve skin hash baked into `DefaultSkinRetriever::new`. -/
def default_steve_hash : String :=
  "1a4af718455d58aab3011401517e43cb6f84b5f9cbd717f8df0334e0b88b8ecf"

/-- The fixed default Steve skin URL baked into `DefaultSkinRetriever::new`. -/
def default_steve_url : String :=
  "http://textures.minecraft.net/texture/" ++ default_steve_hash

/-- Rust `DefaultSkinRetriever` as a `Retriever`, parametrised by the network
oracle used by its by-hash download. -/
def DefaultSkinRetriever (net : Net) : Retriever where
  get_texture := fun _ t =>
    match t with
    | .SKIN => .found ⟨default_steve_url, default_steve_hash, none⟩
    | .CAPE => .empty
  get_texture_bytes := fun _ _ => .empty
  get_texture_bytes_by_hash := fun h =>
    if h = default_steve_hash then
      match download_file_from_url net default_steve_url with
      | .err e => .err e
      | .empty => .empty
      | .found bytes => .found ⟨default_steve_hash, bytes, none⟩
    else
      .empty
  supports_texture_type := fun t =>
    match t with
    | .SKIN => true
    | .CAPE => false

/-! ## Mojang retriever (`retrieval/mojang.rs`)

External decoding steps done by library code (serde JSON, base64) are
oracles: fixed functions supplied as part of the environment. -/

/-- Rust `retrieval/mojang.rs` `ProfileProperty`. -/
structure ProfileProperty where
  name : String
  value : String
  signature : Option String
deriving DecidableEq, Repr

/-- Rust `retrieval/mojang.rs` `ProfileResponse`. -/
structure ProfileResponse where
  id : String
  name : String
  properties : List ProfileProperty
deriving DecidableEq, Repr

/-- Rust `retrieval/mojang.rs` `TextureData`. -/
structure TextureData where
  url : String
  metadata : Option TextureMetadata
deriving DecidableEq, Repr

/-- Rust `retrieval/mojang.rs` `TexturesPayload`; the `HashMap` is modelled
as an association list. -/
structure TexturesPayload where
  textures : List (String × TextureData)
deriving DecidableEq, Repr

/-- Environment of the Mojang retriever: the network plus the library
decoding steps (serde / base64 / uuid parsing) and the username-mapping
database row, each a fixed oracle. -/
structure MojangEnv where
  net : Net
  parseProfile : List Nat → Except String ProfileResponse
  parseUuidResp : List Nat → Except String String
  parseUuid : String → Except String Uuid
  b64decode : String → Except String (List Nat)
  parseTexturesJson : List Nat → Except String TexturesPayload
  dbUsername : Uuid → Except String (Option String)

/-- Configuration bits of `MojangRetriever::new`. -/
structure MojangCfg where
  use_database_username_in_mojang_requests : Bool
  has_db : Bool

/-- The `api_base_url` fixed in `MojangRetriever::new`. -/
def api_base_url : String := "https://api.mojang.com"

/-- The `session_server_url` fixed in `MojangRetriever::new`. -/
def session_server_url : String :=
  "https://sessionserver.mojang.com/session/minecraft/profile"

/-- Rust `str::split` on a single-character pattern, over the character
list: always at least one (possibly empty) piece. -/
def splitOnChar (c : Char) : List Char → List (List Char)
  | [] => [[]]
  | x :: xs =>
    let r := splitOnChar c xs
    if x = c then [] :: r
    else (x :: r.headD []) :: r.tail

/-- Rust `extract_hash_from_url`: strip the query string (`split('?')`
first piece), take the last path segment (`rsplit('/')` first piece),
strip the extension (`split('.')` first piece); empty result is `None`. -/
def extract_hash_from_url (url : String) : Option String :=
  let noQuery := (splitOnChar '?' url.data).headD []
  let lastSegment := (splitOnChar '/' noQuery).getLastD []
  let hash := (splitOnChar '.' lastSegment).headD []
  if hash.isEmpty then none else some (String.mk hash)

/-- Rust `MojangRetriever::resolve_username_to_uuid`: 204 → `Ok(None)`,
other non-success status → error, parse failures → errors. -/
def resolve_username_to_uuid (env : MojangEnv) (username : String) :
    Except String (Option Uuid) :=
  let url := api_base_url ++ "/users/profiles/minecraft/" ++ username
  match env.net url with
  | .error e => .error ("Failed to resolve username from Mojang: " ++ e)
  | .ok resp =>
    if resp.status = 204 then .ok none
    else if statusIsSuccess resp.status then
      match env.parseUuidResp resp.body with
      | .error e => .error ("Failed to parse UUID response: " ++ e)
      | .ok idStr =>
        match env.parseUuid idStr with
        | .error e => .error ("Failed to parse UUID: " ++ e)
        | .ok uuid => .ok (some uuid)
    else .error "Mojang API returned error"

/-- The profile URL `MojangRetriever::fetch_profile` requests for a UUID. -/
def profile_url (uuid : Uuid) : String :=
  session_server_url ++ "/" ++ toString uuid

/-- Rust `MojangRetriever::fetch_profile`: transport error or non-success
status → error; otherwise parse the profile JSON (parse failure → error). -/
def fetch_profile (env : MojangEnv) (uuid : Uuid) :
    Except String ProfileResponse :=
  match env.net (profile_url uuid) with
  | .error e => .error ("Failed to fetch profile from Mojang: " ++ e)
  | .ok resp =>
    if statusIsSuccess resp.status then
      match env.parseProfile resp.body with
      | .error e => .error ("Failed to parse profile response: " ++ e)
      | .ok p => .ok p
    else .error "Mojang API returned error"

/-- Rust `MojangRetriever::decode_textures_payload`: base64 decode then JSON
decode, each failure an error. -/
def decode_textures_payload (env : MojangEnv) (encoded : String) :
    Except String TexturesPayload :=
  match env.b64decode encoded with
  | .error e => .error ("Failed to decode base64: " ++ e)
  | .ok decoded =>
    match env.parseTexturesJson decoded with
    | .error e => .error ("Failed to parse textures payload: " ++ e)
    | .ok payload => .ok payload

/-- Rust `MojangRetriever::get_textures_from_mojang`: fetch the profile, find
the `textures` property, decode it, and build per-kind descriptors whose
hash is parsed out of the URL (`extract_hash_from_url`, defaulting to `""`). -/
def get_textures_from_mojang (env : MojangEnv) (fetch_uuid : Uuid) :
    Except String (List (String × RetrievedTexture)) :=
  match fetch_profile env fetch_uuid with
  | .error e => .error e
  | .ok profile =>
    match profile.properties.find? (fun p => p.name = "textures") with
    | none => .error "Profile does not have textures property"
    | some prop =>
      match decode_textures_payload env prop.value with
      | .error e => .error e
      | .ok payload =>
        .ok (payload.textures.map (fun kv =>
          (kv.1, ⟨kv.2.url, ((extract_hash_from_url kv.2.url).getD ""),
                 kv.2.metadata⟩)))

/-- The key `get_texture_from_mojang` looks up for a kind. -/
def TextureType.key : TextureType → String
  | .SKIN => "SKIN"
  | .CAPE => "CAPE"

/-- Rust `MojangRetriever::get_texture_from_mojang`: fetch all textures
(errors propagate) and select the requested kind. -/
def get_texture_from_mojang (env : MojangEnv) (fetch_uuid : Uuid)
    (t : TextureType) : Outcome RetrievedTexture :=
  match get_textures_from_mojang env fetch_uuid with
  | .error e => .err e
  | .ok texs =>
    match texs.find? (fun kv => kv.1 = t.key) with
    | some kv => .found kv.2
    | none => .empty

/-- The UUID actually queried by `MojangRetriever::get_textures`: when the
database-username toggle is on and a mapping row resolves through the Mojang
username lookup, the resolved UUID; in every fallback arm the original. -/
def mojang_fetch_uuid (env : MojangEnv) (cfg : MojangCfg) (u : Uuid) : Uuid :=
  if cfg.use_database_username_in_mojang_requests && cfg.has_db then
    match env.dbUsername u with
    | .ok (some username) =>
      match resolve_username_to_uuid env username with
      | .ok (some resolved) => resolved
      | .ok none => u
      | .error _ => u
    | .ok none => u
    | .error _ => u
  else u

/-- Rust `MojangRetriever::get_textures` (trait impl): resolve the UUID to
query, then `get_textures_from_mojang`. -/
def MojangRetriever.get_textures (env : MojangEnv) (cfg : MojangCfg)
    (u : Uuid) : Except String (List (String × RetrievedTexture)) :=
  get_textures_from_mojang env (mojang_fetch_uuid env cfg u)

/-- Modelled from the spec: the `TextureRetriever::get_texture` method used
by `MojangRetriever::get_texture_bytes` is a trait default absent from
`src` (the impl block calls `self.get_texture` without defining it). Per the
spec, the Remote-Profile retriever queries the profile service for the user
(honouring the username-cache toggle) and extracts the per-kind descriptor. -/
def MojangRetriever.get_texture (env : MojangEnv) (cfg : MojangCfg)
    (u : Uuid) (t : TextureType) : Outcome RetrievedTexture :=
  get_texture_from_mojang env (mojang_fetch_uuid env cfg u) t

/-- Rust `MojangRetriever::get_texture_bytes_from_mojang`: download the
descriptor's URL and pair the body with the descriptor's own hash and
metadata (no status check, no re-hashing of the bytes). -/
def get_texture_bytes_from_mojang (net : Net) (texture : RetrievedTexture) :
    Except String RetrievedTextureBytes :=
  match net texture.url with
  | .error e => .error ("Failed to download texture: " ++ e)
  | .ok resp => .ok ⟨texture.hash, resp.body, texture.metadata⟩

/-- Rust `MojangRetriever::get_texture_bytes`: get the descriptor (errors
propagate), then download its bytes (errors propagate). -/
def MojangRetriever.get_texture_bytes (env : MojangEnv) (cfg : MojangCfg)
    (u : Uuid) (t : TextureType) : Outcome RetrievedTextureBytes :=
  match MojangRetriever.get_texture env cfg u t with
  | .err e => .err e
  | .empty => .empty
  | .found tex =>
    match get_texture_bytes_from_mojang env.net tex with
    | .error e => .err e
    | .ok r => .found r

/-- Rust `MojangRetriever::get_texture_bytes_by_hash`: download from the
fixed textures URL for the hash via `download_file_from_url` and return the
body under the requested hash. -/
def MojangRetriever.get_texture_bytes_by_hash (net : Net) (hash : String) :
    Outcome RetrievedTextureBytes :=
  match download_file_from_url net
      ("https://textures.minecraft.net/texture/" ++ hash) with
  | .err e => .err e
  | .empty => .empty
  | .found bytes => .found ⟨hash, bytes, none⟩

/-- Rust `MojangRetriever::get_texture_bytes_by_username`: resolve the name
(errors propagate, unknown name → empty), get the descriptor, download it. -/
def MojangRetriever.get_texture_bytes_by_username (env : MojangEnv)
    (username : String) (t : TextureType) : Outcome RetrievedTextureBytes :=
  match resolve_username_to_uuid env username with
  | .error e => .err e
  | .ok none => .empty
  | .ok (some uuid) =>
    match get_texture_from_mojang env uuid t with
    | .err e => .err e
    | .empty => .empty
    | .found tex =>
      match get_texture_bytes_from_mojang env.net tex with
      | .error e => .err e
      | .ok r => .found r

/-! ## Storage retriever (`retrieval/storage_retriever.rs`) -/

/-- Environment of `StorageRetriever::get_texture_bytes_by_hash`: the storage
backend's `get_file` and the metadata row lookup by hash. The row lookup
returns `Except` (query error) of `Option` (row present) of the metadata as
already run through `serde_json::from_value(..).ok()`. -/
structure StorageEnv where
  get_file : String → String → Except String (List Nat)
  dbMetaByHash : String → Except String (Option (Option TextureMetadata))

/-- Rust `StorageRetriever::get_texture_bytes_by_hash`: any `get_file`
failure → `Ok(None)`; on success, the metadata row is looked up (query
errors propagate) and the bytes are returned under the requested hash. -/
def StorageRetriever.get_texture_bytes_by_hash (env : StorageEnv)
    (hash : String) : Outcome RetrievedTextureBytes :=
  match env.get_file hash "png" with
  | .ok bytes =>
    match env.dbMetaByHash hash with
    | .error e => .err e
    | .ok row => .found ⟨hash, bytes, row.join⟩
  | .error _ => .empty

/-! ## Upload handlers (`handlers.rs`) -/

/-- Rust `handlers.rs` `MAX_FILE_SIZE` (1 MB). -/
def MAX_FILE_SIZE : Nat := 1048576

/-- The 8-byte PNG signature checked by `is_png`. -/
def png_signature : List Nat :=
  [0x89, 0x50, 0x4E, 0x47, 0x0D, 0x0A, 0x1A, 0x0A]

/-- Rust `handlers.rs` `is_png`: at least 8 bytes and the first 8 bytes are
the PNG signature. -/
def is_png (bytes : List Nat) : Bool :=
  decide (8 ≤ bytes.length) && (bytes.take 8 == png_signature)

/-- Storage side effects of the upload path, in order of occurrence. -/
inductive UploadEffect where
  | computedHash
  | calledStore
deriving DecidableEq, Repr

/-- The file-field path shared verbatim by `upload_texture` and
`admin_upload_texture`: reject oversized data with 400, reject non-PNG data
with 400, and only then compute the content hash and call
`storage.store_file` (a store failure is a 500). The effect list records
which storage operations were reached. -/
def upload_texture_file (calc_hash : List Nat → String)
    (store : List Nat → String → String → Except String String)
    (extension : String) (data : List Nat) :
    Except (Nat × String) (String × String) × List UploadEffect :=
  if data.length > MAX_FILE_SIZE then
    (.error (400, "File size exceeds maximum allowed size"), [])
  else if is_png data = false then
    (.error (400, "File must be a PNG image"), [])
  else
    let hash := calc_hash data
    match store data hash extension with
    | .error _ =>
      (.error (500, "Failed to store file"),
       [.computedHash, .calledStore])
    | .ok url =>
      (.ok (url, hash), [.computedHash, .calledStore])

/-! ## Chain lemmas -/

/-- The instrumented chain loop computes the same result as the plain one. -/
theorem get_texture_traced_fst (hs : List Retriever) (b : Nat) (u : Uuid)
    (t : TextureType) :
    (ChainRetriever.get_texture_traced hs b u t).1 =
      ChainRetriever.get_texture hs u t := by
  induction hs generalizing b with
  | nil => rfl
  | cons h rest ih =>
    by_cases hsup : h.supports_texture_type t
    · rcases hge : h.get_texture u t with e | _ | y <;>
        simp [ChainRetriever.get_texture_traced, ChainRetriever.get_texture,
          hsup, hge, ih]
    · simp [ChainRetriever.get_texture_traced, ChainRetriever.get_texture,
        hsup, ih]

/-- The instrumented bytes loop computes the same result as the plain one. -/
theorem get_texture_bytes_traced_fst (hs : List Retriever) (b : Nat)
    (u : Uuid) (t : TextureType) :
    (ChainRetriever.get_texture_bytes_traced hs b u t).1 =
      ChainRetriever.get_texture_bytes hs u t := by
  induction hs generalizing b with
  | nil => rfl
  | cons h rest ih =>
    by_cases hsup : h.supports_texture_type t
    · rcases hge : h.get_texture_bytes u t with e | _ | y <;>
        simp [ChainRetriever.get_texture_bytes_traced,
          ChainRetriever.get_texture_bytes, hsup, hge, ih]
    · simp [ChainRetriever.get_texture_bytes_traced,
        ChainRetriever.get_texture_bytes, hsup, ih]

/-- Every position invoked by the chain's `get_texture` loop names a handler
whose `supports_texture_type` holds for the requested kind. -/
theorem mem_get_texture_traced (hs : List Retriever) (b : Nat) (u : Uuid)
    (t : TextureType) (j : Nat)
    (hj : j ∈ (ChainRetriever.get_texture_traced hs b u t).2) :
    ∃ k, ∃ hk : k < hs.length,
      j = b + k ∧ (hs.get ⟨k, hk⟩).supports_texture_type t = true := by
  induction hs generalizing b with
  | nil => simp [ChainRetriever.get_texture_traced] at hj
  | cons h rest ih =>
    by_cases hsup : h.supports_texture_type t
    · rcases hge : h.get_texture u t with e | _ | y
      · simp only [ChainRetriever.get_texture_traced, hsup, if_true, hge] at hj
        rcases List.mem_cons.mp hj with h1 | h2
        · exact ⟨0, by simp, by omega, by simpa using hsup⟩
        · obtain ⟨k, hk, hjk, hks⟩ := ih (b + 1) h2
          exact ⟨k + 1, by simpa using Nat.succ_lt_succ hk, by omega,
            by simpa using hks⟩
      · simp only [ChainRetriever.get_texture_traced, hsup, if_true, hge] at hj
        rcases List.mem_cons.mp hj with h1 | h2
        · exact ⟨0, by simp, by omega, by simpa using hsup⟩
        · obtain ⟨k, hk, hjk, hks⟩ := ih (b + 1) h2
          exact ⟨k + 1, by simpa using Nat.succ_lt_succ hk, by omega,
            by simpa using hks⟩
      · simp only [ChainRetriever.get_texture_traced, hsup, if_true, hge,
          List.mem_singleton] at hj
        exact ⟨0, by simp, by omega, by simpa using hsup⟩
    · simp only [ChainRetriever.get_texture_traced, hsup, if_false] at hj
      obtain ⟨k, hk, hjk, hks⟩ := ih (b + 1) hj
      exact ⟨k + 1, by simpa using Nat.succ_lt_succ hk, by omega,
        by simpa using hks⟩

/-- Every position invoked by the chain's `get_texture_bytes` loop names a
handler whose `supports_texture_type` holds for the requested kind. -/
theorem mem_get_texture_bytes_traced (hs : List Retriever) (b : Nat)
    (u : Uuid) (t : TextureType) (j : Nat)
    (hj : j ∈ (ChainRetriever.get_texture_bytes_traced hs b u t).2) :
    ∃ k, ∃ hk : k < hs.length,
      j = b + k ∧ (hs.get ⟨k, hk⟩).supports_texture_type t = true := by
  induction hs generalizing b with
  | nil => simp [ChainRetriever.get_texture_bytes_traced] at hj
  | cons h rest ih =>
    by_cases hsup : h.supports_texture_type t
    · rcases hge : h.get_texture_bytes u t with e | _ | y
      · simp only [ChainRetriever.get_texture_bytes_traced, hsup, if_true,
          hge] at hj
        rcases List.mem_cons.mp hj with h1 | h2
        · exact ⟨0, by simp, by omega, by simpa using hsup⟩
        · obtain ⟨k, hk, hjk, hks⟩ := ih (b + 1) h2
          exact ⟨k + 1, by simpa using Nat.succ_lt_succ hk, by omega,
            by simpa using hks⟩
      · simp only [ChainRetriever.get_texture_bytes_traced, hsup, if_true,
          hge] at hj
        rcases List.mem_cons.mp hj with h1 | h2
        · exact ⟨0, by simp, by omega, by simpa using hsup⟩
        · obtain ⟨k, hk, hjk, hks⟩ := ih (b + 1) h2
          exact ⟨k + 1, by simpa using Nat.succ_lt_succ hk, by omega,
            by simpa using hks⟩
      · simp only [ChainRetriever.get_texture_bytes_traced, hsup, if_true,
          hge, List.mem_singleton] at hj
        exact ⟨0, by simp, by omega, by simpa using hsup⟩
    · simp only [ChainRetriever.get_texture_bytes_traced, hsup, if_false] at hj
      obtain ⟨k, hk, hjk, hks⟩ := ih (b + 1) hj
      exact ⟨k + 1, by simpa using Nat.succ_lt_succ hk, by omega,
        by simpa using hks⟩

/-- A handler both supporting the kind and returning a non-empty success
from `get_texture`. -/
def deliversTexture (g : Retriever) (u : Uuid) (t : TextureType) : Bool :=
  g.supports_texture_type t && (g.get_texture u t).isFound

/-- A handler both supporting the kind and returning a non-empty success
from `get_texture_bytes`. -/
def deliversTextureBytes (g : Retriever) (u : Uuid) (t : TextureType) :
    Bool :=
  g.supports_texture_type t && (g.get_texture_bytes u t).isFound

/-- First-match-wins for the instrumented `get_texture` loop: with no
delivering handler in `pre`, a supporting, delivering `h` yields its result
and only positions up to `h`'s are invoked. -/
theorem get_texture_traced_first_found (pre post : List Retriever)
    (h : Retriever) (b : Nat) (u : Uuid) (t : TextureType)
    (x : RetrievedTexture)
    (hpre : ∀ g ∈ pre, deliversTexture g u t = false)
    (hsup : h.supports_texture_type t = true)
    (hf : h.get_texture u t = .found x) :
    (ChainRetriever.get_texture_traced (pre ++ h :: post) b u t).1 =
      .found x ∧
    ∀ i ∈ (ChainRetriever.get_texture_traced (pre ++ h :: post) b u t).2,
      i ≤ b + pre.length := by
  induction pre generalizing b with
  | nil =>
    refine ⟨?_, ?_⟩ <;>
      simp [ChainRetriever.get_texture_traced, hsup, hf]
  | cons g pre' ih =>
    have hg : deliversTexture g u t = false :=
      hpre g (List.mem_cons_self g pre')
    have hrest : ∀ g' ∈ pre', deliversTexture g' u t = false :=
      fun g' hg' => hpre g' (List.mem_cons_of_mem g hg')
    obtain ⟨ih1, ih2⟩ := ih (b + 1) hrest
    by_cases hgs : g.supports_texture_type t
    · have hnf : (g.get_texture u t).isFound = false := by
        simpa [deliversTexture, hgs] using hg
      rcases hge : g.get_texture u t with e | _ | y
      · refine ⟨by simpa [ChainRetriever.get_texture_traced, hgs, hge]
          using ih1, ?_⟩
        intro i hi
        simp only [List.cons_append, ChainRetriever.get_texture_traced, hgs,
          if_true, hge, List.mem_cons] at hi
        rcases hi with h1 | h2
        · simp [h1, List.length_cons]
        · have := ih2 i h2
          simp only [List.length_cons]; omega
      · refine ⟨by simpa [ChainRetriever.get_texture_traced, hgs, hge]
          using ih1, ?_⟩
        intro i hi
        simp only [List.cons_append, ChainRetriever.get_texture_traced, hgs,
          if_true, hge, List.mem_cons] at hi
        rcases hi with h1 | h2
        · simp [h1, List.length_cons]
        · have := ih2 i h2
          simp only [List.length_cons]; omega
      · rw [hge] at hnf
        simp [Outcome.isFound] at hnf
    · refine ⟨by simpa [ChainRetriever.get_texture_traced, hgs] using ih1, ?_⟩
      intro i hi
      simp only [List.cons_append, ChainRetriever.get_texture_traced, hgs,
        if_false] at hi
      have := ih2 i hi
      simp only [List.length_cons]; omega

/-- First-match-wins for the instrumented `get_texture_bytes` loop. -/
theorem get_texture_bytes_traced_first_found (pre post : List Retriever)
    (h : Retriever) (b : Nat) (u : Uuid) (t : TextureType)
    (y : RetrievedTextureBytes)
    (hpre : ∀ g ∈ pre, deliversTextureBytes g u t = false)
    (hsup : h.supports_texture_type t = true)
    (hf : h.get_texture_bytes u t = .found y) :
    (ChainRetriever.get_texture_bytes_traced (pre ++ h :: post) b u t).1 =
      .found y ∧
    ∀ i ∈ (ChainRetriever.get_texture_bytes_traced (pre ++ h :: post)
        b u t).2,
      i ≤ b + pre.length := by
  induction pre generalizing b with
  | nil =>
    refine ⟨?_, ?_⟩ <;>
      simp [ChainRetriever.get_texture_bytes_traced, hsup, hf]
  | cons g pre' ih =>
    have hg : deliversTextureBytes g u t = false :=
      hpre g (List.mem_cons_self g pre')
    have hrest : ∀ g' ∈ pre', deliversTextureBytes g' u t = false :=
      fun g' hg' => hpre g' (List.mem_cons_of_mem g hg')
    obtain ⟨ih1, ih2⟩ := ih (b + 1) hrest
    by_cases hgs : g.supports_texture_type t
    · have hnf : (g.get_texture_bytes u t).isFound = false := by
        simpa [deliversTextureBytes, hgs] using hg
      rcases hge : g.get_texture_bytes u t with e | _ | y'
      · refine ⟨by simpa [ChainRetriever.get_texture_bytes_traced, hgs, hge]
          using ih1, ?_⟩
        intro i hi
        simp only [List.cons_append, ChainRetriever.get_texture_bytes_traced,
          hgs, if_true, hge, List.mem_cons] at hi
        rcases hi with h1 | h2
        · simp [h1, List.length_cons]
        · have := ih2 i h2
          simp only [List.length_cons]; omega
      · refine ⟨by simpa [ChainRetriever.get_texture_bytes_traced, hgs, hge]
          using ih1, ?_⟩
        intro i hi
        simp only [List.cons_append, ChainRetriever.get_texture_bytes_traced,
          hgs, if_true, hge, List.mem_cons] at hi
        rcases hi with h1 | h2
        · simp [h1, List.length_cons]
        · have := ih2 i h2
          simp only [List.length_cons]; omega
      · rw [hge] at hnf
        simp [Outcome.isFound] at hnf
    · refine ⟨by simpa [ChainRetriever.get_texture_bytes_traced, hgs]
        using ih1, ?_⟩
      intro i hi
      simp only [List.cons_append, ChainRetriever.get_texture_bytes_traced,
        hgs, if_false] at hi
      have := ih2 i hi
      simp only [List.length_cons]; omega

/-! ## Sample retrievers used to evaluate the chain on concrete inputs -/

/-- A sample texture descriptor. -/
def texSample : RetrievedTexture :=
  ⟨"http://example.com/skin.png", "abc123", none⟩

/-- A sample texture byte payload. -/
def bytesSample : RetrievedTextureBytes := ⟨"abc123", [1, 2, 3], none⟩

/-- A handler that supports everything and always answers empty. -/
def retEmpty : Retriever :=
  ⟨fun _ _ => .empty, fun _ _ => .empty, fun _ => .empty, fun _ => true⟩

/-- A handler that supports everything and always errors. -/
def retErr : Retriever :=
  ⟨fun _ _ => .err "boom", fun _ _ => .err "boom", fun _ => .err "boom",
   fun _ => true⟩

/-- A handler that supports everything and always answers the samples. -/
def retFound : Retriever :=
  ⟨fun _ _ => .found texSample, fun _ _ => .found bytesSample,
   fun _ => .found bytesSample, fun _ => true⟩

/-- A handler that supports and answers only CAPE requests. -/
def retCapeFound : Retriever where
  get_texture := fun _ t =>
    match t with
    | .CAPE => .found texSample
    | .SKIN => .empty
  get_texture_bytes := fun _ _ => .empty
  get_texture_bytes_by_hash := fun _ => .empty
  supports_texture_type := fun t =>
    match t with
    | .CAPE => true
    | .SKIN => false

/-! ## Claims about the chain retriever -/

/-- C1: for every chain, user identity and texture kind,
`ChainRetriever::get_texture` (and `get_texture_bytes`) returns the result
of the first member, in construction order and among members whose
`supports_texture_type` holds for the kind, whose call returns a non-empty
success, and no member after that one is invoked. -/
theorem C1_chain_first_match_wins (pre post : List Retriever) (h : Retriever)
    (u : Uuid) (t : TextureType) :
    (∀ x : RetrievedTexture,
      (∀ g ∈ pre, deliversTexture g u t = false) →
      h.supports_texture_type t = true →
      h.get_texture u t = .found x →
      ChainRetriever.get_texture (pre ++ h :: post) u t = .found x ∧
      ∀ i ∈ (ChainRetriever.get_texture_traced (pre ++ h :: post) 0 u t).2,
        i ≤ pre.length) ∧
    (∀ y : RetrievedTextureBytes,
      (∀ g ∈ pre, deliversTextureBytes g u t = false) →
      h.supports_texture_type t = true →
      h.get_texture_bytes u t = .found y →
      ChainRetriever.get_texture_bytes (pre ++ h :: post) u t = .found y ∧
      ∀ i ∈ (ChainRetriever.get_texture_bytes_traced (pre ++ h :: post)
          0 u t).2,
        i ≤ pre.length) := by
  constructor
  · intro x hpre hsup hf
    obtain ⟨h1, h2⟩ :=
      get_texture_traced_first_found pre post h 0 u t x hpre hsup hf
    refine ⟨?_, ?_⟩
    · rw [← get_texture_traced_fst (pre ++ h :: post) 0 u t]
      exact h1
    · intro i hi
      simpa using h2 i hi
  · intro y hpre hsup hf
    obtain ⟨h1, h2⟩ :=
      get_texture_bytes_traced_first_found pre post h 0 u t y hpre hsup hf
    refine ⟨?_, ?_⟩
    · rw [← get_texture_bytes_traced_fst (pre ++ h :: post) 0 u t]
      exact h1
    · intro i hi
      simpa using h2 i hi

/-- Witness for C1: chain `[empty, found, errs]` answers the second
handler's texture for SKIN and invokes no handler past position 1. -/
theorem C1_witness :
    ((∀ g ∈ [retEmpty], deliversTexture g 0 TextureType.SKIN = false) ∧
     retFound.supports_texture_type .SKIN = true ∧
     retFound.get_texture 0 .SKIN = .found texSample) ∧
    ChainRetriever.get_texture ([retEmpty] ++ retFound :: [retErr])
        0 .SKIN = .found texSample ∧
    ∀ i ∈ (ChainRetriever.get_texture_traced
        ([retEmpty] ++ retFound :: [retErr]) 0 0 .SKIN).2,
      i ≤ 1 := by
  have h := (C1_chain_first_match_wins [retEmpty] [retErr] retFound
      0 .SKIN).1 texSample (by decide) (by decide) (by decide)
  exact ⟨⟨by decide, by decide, by decide⟩, h.1, by simpa using h.2⟩

/-- C2: an erroring member never aborts the chain: the chain over
`h :: rest` equals the chain over `rest` when `h` errors (for `get_texture`
and `get_texture_bytes_by_hash`), and in particular a chain `[h, r2]` with
`h` erroring and `r2` delivering `x` returns `x`, surfacing no error. -/
theorem C2_chain_continues_on_error (h : Retriever) (rest : List Retriever)
    (u : Uuid) (t : TextureType) (s : String) (e e' : String) :
    (h.get_texture u t = .err e →
      ChainRetriever.get_texture (h :: rest) u t =
        ChainRetriever.get_texture rest u t) ∧
    (h.get_texture_bytes_by_hash s = .err e' →
      ChainRetriever.get_texture_bytes_by_hash (h :: rest) s =
        ChainRetriever.get_texture_bytes_by_hash rest s) ∧
    (∀ r2 x, h.get_texture u t = .err e →
      r2.supports_texture_type t = true →
      r2.get_texture u t = .found x →
      ChainRetriever.get_texture [h, r2] u t = .found x) := by
  refine ⟨?_, ?_, ?_⟩
  · intro he
    by_cases hsup : h.supports_texture_type t
    · simp [ChainRetriever.get_texture, hsup, he]
    · simp [ChainRetriever.get_texture, hsup]
  · intro he
    simp [ChainRetriever.get_texture_bytes_by_hash, he]
  · intro r2 x he hsup hf
    by_cases hs0 : h.supports_texture_type t
    · simp [ChainRetriever.get_texture, hs0, he, hsup, hf]
    · simp [ChainRetriever.get_texture, hs0, hsup, hf]

/-- Witness for C2: chain `[errs, found]` answers the second handler's
texture for SKIN. -/
theorem C2_witness :
    retErr.get_texture 0 TextureType.SKIN = .err "boom" ∧
    retFound.supports_texture_type .SKIN = true ∧
    retFound.get_texture 0 .SKIN = .found texSample ∧
    ChainRetriever.get_texture [retErr, retFound] 0 .SKIN =
      .found texSample := by
  refine ⟨by decide, by decide, by decide, ?_⟩
  exact (C2_chain_continues_on_error retErr [retFound] 0 .SKIN "x"
    "boom" "boom").2.2 retFound texSample (by decide) (by decide) (by decide)

/-- C3: a chain whose members all answer empty or error for the request
returns an empty success from each operation — an exhausted chain never
surfaces an error. -/
theorem C3_chain_exhaustion (hs : List Retriever) (u : Uuid)
    (t : TextureType) (s : String)
    (ha : ∀ g ∈ hs, (g.get_texture u t).isFound = false)
    (hb : ∀ g ∈ hs, (g.get_texture_bytes u t).isFound = false)
    (hc : ∀ g ∈ hs, (g.get_texture_bytes_by_hash s).isFound = false) :
    ChainRetriever.get_texture hs u t = .empty ∧
    ChainRetriever.get_texture_bytes hs u t = .empty ∧
    ChainRetriever.get_texture_bytes_by_hash hs s = .empty := by
  induction hs with
  | nil => exact ⟨rfl, rfl, rfl⟩
  | cons g rest ih =>
    obtain ⟨ih1, ih2, ih3⟩ := ih
      (fun g' h' => ha g' (List.mem_cons_of_mem g h'))
      (fun g' h' => hb g' (List.mem_cons_of_mem g h'))
      (fun g' h' => hc g' (List.mem_cons_of_mem g h'))
    refine ⟨?_, ?_, ?_⟩
    · have hg := ha g (List.mem_cons_self g rest)
      by_cases hgs : g.supports_texture_type t
      · rcases hge : g.get_texture u t with e | _ | y
        · simp [ChainRetriever.get_texture, hgs, hge, ih1]
        · simp [ChainRetriever.get_texture, hgs, hge, ih1]
        · rw [hge] at hg
          simp [Outcome.isFound] at hg
      · simp [ChainRetriever.get_texture, hgs, ih1]
    · have hg := hb g (List.mem_cons_self g rest)
      by_cases hgs : g.supports_texture_type t
      · rcases hge : g.get_texture_bytes u t with e | _ | y
        · simp [ChainRetriever.get_texture_bytes, hgs, hge, ih2]
        · simp [ChainRetriever.get_texture_bytes, hgs, hge, ih2]
        · rw [hge] at hg
          simp [Outcome.isFound] at hg
      · simp [ChainRetriever.get_texture_bytes, hgs, ih2]
    · have hg := hc g (List.mem_cons_self g rest)
      rcases hge : g.get_texture_bytes_by_hash s with e | _ | y
      · simp [ChainRetriever.get_texture_bytes_by_hash, hge, ih3]
      · simp [ChainRetriever.get_texture_bytes_by_hash, hge, ih3]
      · rw [hge] at hg
        simp [Outcome.isFound] at hg

/-- Witness for C3: the chain `[empty, errs]` answers empty on every
operation. -/
theorem C3_witness :
    ((∀ g ∈ [retEmpty, retErr],
        (Retriever.get_texture g 0 TextureType.SKIN).isFound = false) ∧
     (∀ g ∈ [retEmpty, retErr],
        (Retriever.get_texture_bytes g 0 TextureType.SKIN).isFound =
          false) ∧
     (∀ g ∈ [retEmpty, retErr],
        (Retriever.get_texture_bytes_by_hash g "h").isFound = false)) ∧
    ChainRetriever.get_texture [retEmpty, retErr] 0 .SKIN = .empty ∧
    ChainRetriever.get_texture_bytes [retEmpty, retErr] 0 .SKIN = .empty ∧
    ChainRetriever.get_texture_bytes_by_hash [retEmpty, retErr] "h" =
      .empty := by
  exact ⟨⟨by decide, by decide, by decide⟩,
    C3_chain_exhaustion [retEmpty, retErr] 0 .SKIN "h"
      (by decide) (by decide) (by decide)⟩

/-- C4: a member whose `supports_texture_type` is false for the requested
kind is never invoked by the kind-scoped chain operations; in particular
`DefaultSkinRetriever` does not support CAPE, and a chain headed by it
still succeeds for a CAPE request via a later supporting member while never
invoking it. -/
theorem C4_kind_filter (hs : List Retriever) (u : Uuid) (t : TextureType)
    (net : Net) :
    (∀ i, ∀ hi : i < hs.length,
      (hs.get ⟨i, hi⟩).supports_texture_type t = false →
      i ∉ (ChainRetriever.get_texture_traced hs 0 u t).2 ∧
      i ∉ (ChainRetriever.get_texture_bytes_traced hs 0 u t).2) ∧
    (DefaultSkinRetriever net).supports_texture_type .CAPE = false ∧
    (∀ r2 x, r2.supports_texture_type .CAPE = true →
      r2.get_texture u .CAPE = .found x →
      ChainRetriever.get_texture [DefaultSkinRetriever net, r2] u .CAPE =
        .found x ∧
      0 ∉ (ChainRetriever.get_texture_traced [DefaultSkinRetriever net, r2]
          0 u .CAPE).2) := by
  refine ⟨?_, rfl, ?_⟩
  · intro i hi hns
    constructor
    · intro hmem
      obtain ⟨k, hk, hik, hks⟩ := mem_get_texture_traced hs 0 u t i hmem
      have hki : k = i := by omega
      subst hki
      simp at hks hns; exact absurd (hks.symm.trans hns) (by decide)
    · intro hmem
      obtain ⟨k, hk, hik, hks⟩ :=
        mem_get_texture_bytes_traced hs 0 u t i hmem
      have hki : k = i := by omega
      subst hki
      simp at hks hns; exact absurd (hks.symm.trans hns) (by decide)
  · intro r2 x hsup hf
    constructor
    · simp [ChainRetriever.get_texture, DefaultSkinRetriever, hsup, hf]
    · simp [ChainRetriever.get_texture_traced, DefaultSkinRetriever, hsup,
        hf]

/-- Witness for C4: in the chain `[DefaultSkinRetriever, capeHandler]` a
CAPE request succeeds via the second handler and position 0 is never
invoked. -/
theorem C4_witness :
    retCapeFound.supports_texture_type TextureType.CAPE = true ∧
    retCapeFound.get_texture 0 .CAPE = .found texSample ∧
    ChainRetriever.get_texture
        [DefaultSkinRetriever (fun _ => .error "offline"), retCapeFound]
        0 .CAPE = .found texSample ∧
    0 ∉ (ChainRetriever.get_texture_traced
        [DefaultSkinRetriever (fun _ => .error "offline"), retCapeFound]
        0 0 .CAPE).2 := by
  have h := (C4_kind_filter
      [DefaultSkinRetriever (fun _ => .error "offline"), retCapeFound]
      0 .CAPE (fun _ => .error "offline")).2.2 retCapeFound texSample
      (by decide) (by decide)
  exact ⟨by decide, by decide, h.1, h.2⟩

/-! ## Claims about the storage backends -/

/-- C5: for both backend variants, a successful `store_file` followed by
`get_file` on the same digest returns exactly the stored bytes, and
re-storing the same bytes under the same digest leaves the backing store —
hence everything subsequently retrievable — unchanged. -/
theorem C5_store_get_round_trip (l : LocalStorage) (s3 : S3Storage)
    (fs fs3 : FileStore) (B : List Nat) (d ext : String) :
    (l.get_file (l.store_file fs B d ext).1 d ext = .ok B ∧
     (l.store_file (l.store_file fs B d ext).1 B d ext).1 =
       (l.store_file fs B d ext).1) ∧
    (s3.get_file (s3.store_file fs3 B d ext).1 d ext = .ok B ∧
     (s3.store_file (s3.store_file fs3 B d ext).1 B d ext).1 =
       (s3.store_file fs3 B d ext).1) := by
  refine ⟨⟨?_, ?_⟩, ⟨?_, ?_⟩⟩
  · simp [LocalStorage.get_file, LocalStorage.store_file, FileStore.write]
  · funext q
    simp only [LocalStorage.store_file, FileStore.write]
    by_cases hq : q = l.file_path d <;> simp [hq]
  · simp [S3Storage.get_file, S3Storage.store_file, FileStore.write]
  · funext q
    simp only [S3Storage.store_file, FileStore.write]
    by_cases hq : q = s3.get_file_path d ext <;> simp [hq]

/-- C8: for both backend variants, `generate_url` is a pure function of the
backend configuration and its arguments — independent of the backing store
and of the stored bytes — and equals the URL returned by a successful
`store_file` for the same digest and extension. -/
theorem C8_generate_url_matches_store (l : LocalStorage) (s3 : S3Storage)
    (fs fs' : FileStore) (B B' : List Nat) (d ext : String) :
    ((l.store_file fs B d ext).2 = l.generate_url d ext ∧
     (l.store_file fs B d ext).2 = (l.store_file fs' B' d ext).2) ∧
    ((s3.store_file fs B d ext).2 = s3.generate_url d ext ∧
     (s3.store_file fs B d ext).2 = (s3.store_file fs' B' d ext).2) := by
  exact ⟨⟨rfl, rfl⟩, ⟨rfl, rfl⟩⟩

/-! ## Claim about the storage retriever -/

/-- C9: any `get_file` failure — not only a missing key — makes the storage
retriever's by-hash lookup an empty success, never an error; an error can
only arise from the metadata database lookup after the bytes were read. -/
theorem C9_storage_by_hash_swallows_backend_errors (env : StorageEnv)
    (hash : String) :
    (∀ e, env.get_file hash "png" = .error e →
      StorageRetriever.get_texture_bytes_by_hash env hash = .empty) ∧
    (∀ e, StorageRetriever.get_texture_bytes_by_hash env hash = .err e →
      ∃ bytes, env.get_file hash "png" = .ok bytes ∧
        env.dbMetaByHash hash = .error e) := by
  constructor
  · intro e he
    simp [StorageRetriever.get_texture_bytes_by_hash, he]
  · intro e he
    rcases hg : env.get_file hash "png" with e' | bytes
    · simp [StorageRetriever.get_texture_bytes_by_hash, hg] at he
    · rcases hd : env.dbMetaByHash hash with e'' | row
      · have heq : e'' = e := by
          simpa [StorageRetriever.get_texture_bytes_by_hash, hg, hd] using he
        exact ⟨bytes, rfl, by rw [heq]⟩
      · simp [StorageRetriever.get_texture_bytes_by_hash, hg, hd] at he

/-- A storage-retriever environment whose backend read always fails. -/
def storageEnvFail : StorageEnv :=
  ⟨fun _ _ => .error "transport down", fun _ => .ok none⟩

/-- Witness for C9: an always-failing backend read yields an empty success. -/
theorem C9_witness :
    storageEnvFail.get_file "h" "png" = .error "transport down" ∧
    StorageRetriever.get_texture_bytes_by_hash storageEnvFail "h" =
      .empty := by
  exact ⟨rfl, (C9_storage_by_hash_swallows_backend_errors storageEnvFail
    "h").1 "transport down" rfl⟩

/-! ## Claim about the upload handlers -/

/-- C10: the upload handlers accept a file field only if it is at least 8
bytes, begins with the 8-byte PNG signature, and is at most 1,048,576
bytes; any violating file is rejected with a 400 before a hash is computed
or a byte is written to storage. -/
theorem C10_upload_png_validation (hashFn : List Nat → String)
    (storeFn : List Nat → String → String → Except String String)
    (ext : String) (data : List Nat) :
    (is_png data = true ↔
      (8 ≤ data.length ∧ data.take 8 = png_signature)) ∧
    ((data.length > MAX_FILE_SIZE ∨ is_png data = false) →
      (∃ m, (upload_texture_file hashFn storeFn ext data).1 =
        .error (400, m)) ∧
      (upload_texture_file hashFn storeFn ext data).2 = []) ∧
    (data.length ≤ MAX_FILE_SIZE → is_png data = true →
      (upload_texture_file hashFn storeFn ext data).2 =
        [.computedHash, .calledStore]) := by
  refine ⟨?_, ?_, ?_⟩
  · simp [is_png, Bool.and_eq_true, decide_eq_true_eq]
  · intro hviol
    by_cases hbig : data.length > MAX_FILE_SIZE
    · simp [upload_texture_file, hbig]
    · have hpng : is_png data = false := by
        rcases hviol with h | h
        · exact absurd h hbig
        · exact h
      simp [upload_texture_file, hbig, hpng]
  · intro hle hpng
    have hnbig : ¬data.length > MAX_FILE_SIZE := by omega
    rcases hst : storeFn data (hashFn data) ext with e | url <;>
      simp [upload_texture_file, hnbig, hpng, hst]

/-- Witness for C10: the bare PNG signature is accepted (hash and store
run); a 1-byte file is rejected with a 400 and no storage effect. -/
theorem C10_witness :
    (png_signature.length ≤ MAX_FILE_SIZE ∧ is_png png_signature = true ∧
     (upload_texture_file (fun _ => "h") (fun _ _ _ => .ok "u") "png"
         png_signature).2 = [.computedHash, .calledStore]) ∧
    (([1] : List Nat).length > MAX_FILE_SIZE ∨ is_png [1] = false) ∧
    (∃ m, (upload_texture_file (fun _ => "h") (fun _ _ _ => .ok "u") "png"
        [1]).1 = .error (400, m)) ∧
    (upload_texture_file (fun _ => "h") (fun _ _ _ => .ok "u") "png"
        [1]).2 = [] := by
  have hacc := (C10_upload_png_validation (fun _ => "h")
      (fun _ _ _ => .ok "u") "png" png_signature).2.2 (by decide) (by decide)
  have hrej := (C10_upload_png_validation (fun _ => "h")
      (fun _ _ _ => .ok "u") "png" [1]).2.1 (Or.inr (by decide))
  exact ⟨⟨by decide, by decide, hacc⟩, Or.inr (by decide), hrej.1, hrej.2⟩

/-! ## Claims about the Mojang retriever -/

/-- The profile-service failure cases of the claim, at the UUID actually
queried: the session server answers with a non-success status, or the
fetched profile's textures property fails to decode. -/
def profileFailure (env : MojangEnv) (fu : Uuid) : Prop :=
  (∃ resp, env.net (profile_url fu) = .ok resp ∧
    statusIsSuccess resp.status = false) ∨
  (∃ p prop e, fetch_profile env fu = .ok p ∧
    p.properties.find? (fun q => q.name = "textures") = some prop ∧
    decode_textures_payload env prop.value = .error e)

/-- A profile-service failure makes `get_textures_from_mojang` an error. -/
theorem get_textures_from_mojang_fails (env : MojangEnv) (fu : Uuid)
    (h : profileFailure env fu) :
    ∃ e, get_textures_from_mojang env fu = .error e := by
  rcases h with ⟨resp, hnet, hst⟩ | ⟨p, prop, e, hp, hfind, hdec⟩
  · refine ⟨"Mojang API returned error", ?_⟩
    simp [get_textures_from_mojang, fetch_profile, hnet, hst]
  · exact ⟨e, by simp [get_textures_from_mojang, hp, hfind, hdec]⟩

/-- C6: whenever the profile-service interaction inside a Mojang retrieval
operation fails — a non-success response status, or a textures payload that
fails to decode — that operation returns an error, never an empty success. -/
theorem C6_mojang_profile_failures_are_errors (env : MojangEnv)
    (cfg : MojangCfg) (u : Uuid) (t : TextureType) (username : String) :
    (profileFailure env (mojang_fetch_uuid env cfg u) →
      (∃ e, MojangRetriever.get_textures env cfg u = .error e) ∧
      (∃ e, MojangRetriever.get_texture env cfg u t = .err e) ∧
      (∃ e, MojangRetriever.get_texture_bytes env cfg u t = .err e)) ∧
    (∀ fu, resolve_username_to_uuid env username = .ok (some fu) →
      profileFailure env fu →
      ∃ e, MojangRetriever.get_texture_bytes_by_username env username t =
        .err e) ∧
    (∀ resp, env.net (api_base_url ++ "/users/profiles/minecraft/" ++
        username) = .ok resp →
      statusIsSuccess resp.status = false → resp.status ≠ 204 →
      ∃ e, MojangRetriever.get_texture_bytes_by_username env username t =
        .err e) := by
  refine ⟨?_, ?_, ?_⟩
  · intro hf
    obtain ⟨e, he⟩ := get_textures_from_mojang_fails env _ hf
    refine ⟨⟨e, ?_⟩, ⟨e, ?_⟩, ⟨e, ?_⟩⟩
    · simpa [MojangRetriever.get_textures] using he
    · simp [MojangRetriever.get_texture, get_texture_from_mojang, he]
    · simp [MojangRetriever.get_texture_bytes, MojangRetriever.get_texture,
        get_texture_from_mojang, he]
  · intro fu hres hf
    obtain ⟨e, he⟩ := get_textures_from_mojang_fails env fu hf
    exact ⟨e, by simp [MojangRetriever.get_texture_bytes_by_username, hres,
      get_texture_from_mojang, he]⟩
  · intro resp hnet hst h204
    refine ⟨"Mojang API returned error", ?_⟩
    simp [MojangRetriever.get_texture_bytes_by_username,
      resolve_username_to_uuid, hnet, hst, h204]

/-- A Mojang environment in which every network request answers 500. -/
def envDown : MojangEnv :=
  ⟨fun _ => .ok ⟨500, []⟩, fun _ => .error "unused", fun _ => .error "unused",
   fun _ => .error "unused", fun _ => .error "unused",
   fun _ => .error "unused", fun _ => .ok none⟩

/-- The configuration with the database-username toggle off. -/
def cfgPlain : MojangCfg := ⟨false, false⟩

/-- Witness for C6: with the session server answering 500, `get_texture`
returns an error. -/
theorem C6_witness :
    profileFailure envDown (mojang_fetch_uuid envDown cfgPlain 0) ∧
    (∃ e, MojangRetriever.get_texture envDown cfgPlain 0
      TextureType.SKIN = .err e) := by
  have hpf : profileFailure envDown (mojang_fetch_uuid envDown cfgPlain 0) :=
    Or.inl ⟨⟨500, []⟩, rfl, by decide⟩
  exact ⟨hpf, ((C6_mojang_profile_failures_are_errors envDown cfgPlain 0
    .SKIN "n").1 hpf).2.1⟩

/-- A profile response with a single textures property. -/
def profileWithTextures (v : String) : ProfileResponse :=
  ⟨"id0", "name0", [⟨"textures", v, none⟩]⟩

/-- A Mojang environment that serves a SKIN descriptor at the given URL and
answers every download with status 200 and body `[1, 2, 3]`. -/
def envTex (url : String) : MojangEnv where
  net := fun _ => .ok ⟨200, [1, 2, 3]⟩
  parseProfile := fun _ => .ok (profileWithTextures "enc")
  parseUuidResp := fun _ => .ok "id0"
  parseUuid := fun _ => .ok 0
  b64decode := fun _ => .ok []
  parseTexturesJson := fun _ => .ok ⟨[("SKIN", ⟨url, none⟩)]⟩
  dbUsername := fun _ => .ok none

/-- Every descriptor produced by `get_textures_from_mojang` carries the hash
parsed out of its own URL (defaulting to the empty string). -/
theorem get_textures_from_mojang_hash_from_url (env : MojangEnv) (fu : Uuid)
    (texs : List (String × RetrievedTexture))
    (h : get_textures_from_mojang env fu = .ok texs) :
    ∀ kv ∈ texs, kv.2.hash = (extract_hash_from_url kv.2.url).getD "" := by
  unfold get_textures_from_mojang at h
  rcases hp : fetch_profile env fu with e | p
  · simp [hp] at h
  · simp only [hp] at h
    rcases hfind : p.properties.find? (fun q => q.name = "textures") with
      _ | prop
    · simp [hfind] at h
    · simp only [hfind] at h
      rcases hdec : decode_textures_payload env prop.value with e | payload
      · simp [hdec] at h
      · simp only [hdec, Except.ok.injEq] at h
        intro kv hkv
        rw [← h] at hkv
        obtain ⟨kv', _, heq⟩ := List.mem_map.mp hkv
        rw [← heq]

/-- A descriptor selected by `get_texture_from_mojang` carries the hash
parsed out of its own URL. -/
theorem get_texture_from_mojang_hash_from_url (env : MojangEnv) (fu : Uuid)
    (t : TextureType) (tex : RetrievedTexture)
    (h : get_texture_from_mojang env fu t = .found tex) :
    tex.hash = (extract_hash_from_url tex.url).getD "" := by
  unfold get_texture_from_mojang at h
  rcases hg : get_textures_from_mojang env fu with e | texs
  · simp [hg] at h
  · simp only [hg] at h
    rcases hf : texs.find? (fun kv => kv.1 = t.key) with _ | kv
    · simp [hf] at h
    · simp only [hf, Outcome.found.injEq] at h
      have hmem := List.mem_of_find?_eq_some hf
      have := get_textures_from_mojang_hash_from_url env fu texs hg kv hmem
      rw [← h]
      exact this

/-- Counterexample to C7 as stated: two Mojang runs downloading identical
byte payloads return different digests — the digest is copied from the
texture URL, not computed by hashing the downloaded bytes (a SHA-256 hex
digest of `[1, 2, 3]` would be one fixed 64-character string, but here the
digest is a 3-character string that varies with the URL alone). -/
theorem C7_counterexample :
    MojangRetriever.get_texture_bytes_by_username (envTex "http://t/aaa")
        "steve" TextureType.SKIN = .found ⟨"aaa", [1, 2, 3], none⟩ ∧
    MojangRetriever.get_texture_bytes_by_username (envTex "http://t/bbb")
        "steve" TextureType.SKIN = .found ⟨"bbb", [1, 2, 3], none⟩ ∧
    ("aaa" : String) ≠ "bbb" ∧ ("aaa" : String).length ≠ 64 := by
  refine ⟨by decide, by decide, by decide, by decide⟩

/-- C7 amended: whenever the Mojang retriever fetches and returns texture
bytes (`get_texture_bytes`, `get_texture_bytes_by_username`), the digest of
the result is the descriptor's hash — the value `extract_hash_from_url`
parses out of the texture URL's last path segment (defaulting to the empty
string) — and the bytes are the downloaded body; the digest is not
recomputed from the downloaded payload. -/
theorem C7_mojang_digest_from_url (env : MojangEnv) (cfg : MojangCfg)
    (u : Uuid) (t : TextureType) (username : String)
    (r : RetrievedTextureBytes) :
    (MojangRetriever.get_texture_bytes env cfg u t = .found r →
      ∃ tex, MojangRetriever.get_texture env cfg u t = .found tex ∧
        r.hash = tex.hash ∧
        tex.hash = (extract_hash_from_url tex.url).getD "" ∧
        ∃ resp, env.net tex.url = .ok resp ∧ r.bytes = resp.body) ∧
    (MojangRetriever.get_texture_bytes_by_username env username t =
        .found r →
      ∃ fu tex, resolve_username_to_uuid env username = .ok (some fu) ∧
        get_texture_from_mojang env fu t = .found tex ∧
        r.hash = tex.hash ∧
        tex.hash = (extract_hash_from_url tex.url).getD "" ∧
        ∃ resp, env.net tex.url = .ok resp ∧ r.bytes = resp.body) := by
  constructor
  · intro h
    unfold MojangRetriever.get_texture_bytes at h
    rcases hg : MojangRetriever.get_texture env cfg u t with e | _ | tex
    · simp [hg] at h
    · simp [hg] at h
    · simp only [hg] at h
      have hg' : get_texture_from_mojang env (mojang_fetch_uuid env cfg u) t
          = .found tex := hg
      rcases hd : get_texture_bytes_from_mojang env.net tex with e | rr
      · simp [hd] at h
      · simp only [hd, Outcome.found.injEq] at h
        subst h
        unfold get_texture_bytes_from_mojang at hd
        rcases hn : env.net tex.url with e | resp
        · simp [hn] at hd
        · simp only [hn, Except.ok.injEq] at hd
          refine ⟨tex, rfl, ?_, ?_, resp, hn, ?_⟩
          · rw [← hd]
          · exact get_texture_from_mojang_hash_from_url env
              (mojang_fetch_uuid env cfg u) t tex hg'
          · rw [← hd]
  · intro h
    unfold MojangRetriever.get_texture_bytes_by_username at h
    rcases hres : resolve_username_to_uuid env username with e | ou
    · simp [hres] at h
    · simp only [hres] at h
      rcases ou with _ | fu
      · simp at h
      · rcases hg : get_texture_from_mojang env fu t with e | _ | tex
        · simp [hg] at h
        · simp [hg] at h
        · simp only [hg] at h
          rcases hd : get_texture_bytes_from_mojang env.net tex with e | rr
          · simp [hd] at h
          · simp only [hd, Outcome.found.injEq] at h
            subst h
            unfold get_texture_bytes_from_mojang at hd
            rcases hn : env.net tex.url with e | resp
            · simp [hn] at hd
            · simp only [hn, Except.ok.injEq] at hd
              refine ⟨fu, tex, rfl, hg, ?_, ?_, resp, hn, ?_⟩
              · rw [← hd]
              · exact get_texture_from_mojang_hash_from_url env fu t tex hg
              · rw [← hd]

/-- Witness for the amended C7: on a concrete environment the returned
digest is exactly the URL-parsed hash of the served descriptor. -/
theorem C7_witness :
    MojangRetriever.get_texture_bytes (envTex "http://t/aaa") cfgPlain 0
        TextureType.SKIN = .found ⟨"aaa", [1, 2, 3], none⟩ ∧
    ∃ tex, MojangRetriever.get_texture (envTex "http://t/aaa") cfgPlain 0
        TextureType.SKIN = .found tex ∧
      (⟨"aaa", [1, 2, 3], none⟩ : RetrievedTextureBytes).hash = tex.hash ∧
      tex.hash = (extract_hash_from_url tex.url).getD "" ∧
      ∃ resp, (envTex "http://t/aaa").net tex.url = .ok resp ∧
        (⟨"aaa", [1, 2, 3], none⟩ : RetrievedTextureBytes).bytes =
          resp.body := by
  refine ⟨by decide, ?_⟩
  exact (C7_mojang_digest_from_url (envTex "http://t/aaa") cfgPlain 0
    .SKIN "n" ⟨"aaa", [1, 2, 3], none⟩).1 (by decide)

end TextureProvider
